import Mathlib

/-!
Verification development for the conversation-session engine of the
chat-heimerdinger bridge (Slack / Feishu ↔ Claude Code CLI).

The definitions below are a shallow embedding of the TypeScript source:

* `src/services/claude-code.ts` — the Execution Orchestrator
  (`execute`: stdout line buffering, chunk parsing, abort handle,
  close-time settlement) and `getSessions`;
* `src/services/message-processor.ts` — the Conversation Controller
  (`resolveSessionId`, `saveState`, the state-mutating command handlers,
  the retry workflow, `truncateToByteLimit` / `truncateForSlack`, and
  `updateMessageThrottled`, the throttled update channel).

JavaScript strings are modelled either as `List Char` (where only line
structure matters) or as lists of UTF-16 code units (`List Nat`, where
`Buffer.byteLength` and `String.prototype.slice` semantics matter).
`JSON.parse` inside a `try`/`catch` is modelled as a parameter
`parse : List Char → Option ClaudeStreamChunk`: `none` models a thrown
`SyntaxError` that the source swallows.  The event-driven parts
(`'data'`/`'close'` callbacks, `setTimeout`) are modelled as explicit
events acting on explicit state.
-/

/-- One parsed unit of the subprocess's line-delimited output protocol.
Embeds the `ClaudeStreamChunk` interface of `src/types.ts`, restricted to
the fields the orchestrator itself consults (`type`, and `session_id`
which rides along in `result` chunks). -/
structure ClaudeStreamChunk where
  type : String
  session_id : Option String := none
  deriving Repr, DecidableEq

/-- Models `JSON.parse` applied to one line, wrapped in the source's
`try { ... } catch { /- Ignore parse errors -/ }`:
`none` stands for a line whose parse throws. -/
abbrev JsParse := List Char → Option ClaudeStreamChunk

/-- The mutable state closed over by one `execute` run in
`src/services/claude-code.ts` (lines 206–291): the partial-line `buffer`,
`lastResult`, the `aborted` flag, plus two observation logs — `delivered`
records the `onChunk(chunk)` calls in order, and `killSignals` counts the
`proc.kill` invocations. -/
structure ExecState where
  buffer : List Char
  lastResult : Option ClaudeStreamChunk
  delivered : List ClaudeStreamChunk
  aborted : Bool
  killSignals : Nat
  deriving Repr, DecidableEq

/-- The initial run state: `let lastResult = null; let buffer = ''; let aborted = false;`. -/
def ExecState.init : ExecState :=
  { buffer := [], lastResult := none, delivered := [], aborted := false, killSignals := 0 }

/-- Models `line.trim()` being falsy in `if (line.trim())`:
true iff every UTF-16 unit of the line is whitespace. -/
def jsTrimEmpty (l : List Char) : Bool :=
  l.all (fun c => c.isWhitespace)

/-- The per-line body shared by the stdout `'data'` handler (lines 237–251)
and the `'close'` handler's leftover-buffer processing (lines 260–273):

```
if (line.trim()) {
  try {
    const chunk = JSON.parse(line);
    if (options.onChunk) options.onChunk(chunk);
    if (chunk.type === 'result') lastResult = chunk;
  } catch { /- Ignore parse errors -/ }
}
``` -/
def processLine (parse : JsParse) (st : ExecState) (line : List Char) : ExecState :=
  if jsTrimEmpty line then st
  else
    match parse line with
    | some chunk =>
        { st with
          delivered := st.delivered ++ [chunk],
          lastResult := if chunk.type == "result" then some chunk else st.lastResult }
    | none => st

/-- Models `str.split('\n')` on a JS string viewed as a char list: the list of
segments between newline characters (always non-empty; no segment
contains `'\n'`). -/
def splitOnNl : List Char → List (List Char)
  | [] => [[]]
  | c :: cs =>
      if c = '\n' then [] :: splitOnNl cs
      else
        match splitOnNl cs with
        | [] => [[c]]
        | l :: ls => (c :: l) :: ls

/-- The stdout `'data'` handler (lines 232–252):

```
buffer += data.toString('utf8');
const lines = buffer.split('\n');
buffer = lines.pop() || '';
for (const line of lines) { ...processLine... }
``` -/
def onStdoutData (parse : JsParse) (st : ExecState) (data : List Char) : ExecState :=
  let parts := splitOnNl (st.buffer ++ data)
  let complete := parts.dropLast
  let st1 := { st with buffer := parts.getLastD [] }
  complete.foldl (processLine parse) st1

/-- The abort closure of `execute` (lines 218–224):

```
const abort = () => {
  if (!aborted) { aborted = true; proc.kill('SIGTERM'); }
};
``` -/
def abortRun (st : ExecState) : ExecState :=
  if !st.aborted then { st with aborted := true, killSignals := st.killSignals + 1 }
  else st

/-- How the `execute` promise settles. `rejected code` carries the
`Claude process exited with code ...` error's exit code
(`code : number | null` on Node's `'close'` event). -/
inductive Settle where
  | resolved (r : Option ClaudeStreamChunk)
  | rejected (code : Option Int)
  deriving Repr, DecidableEq

/-- The `'close'` handler (lines 259–282): process any leftover buffered
partial line through the same per-line body, then

```
if (aborted) resolve(null);
else if (code === 0 || lastResult) resolve(lastResult);
else reject(new Error(`...exited with code ...`));
``` -/
def onClose (parse : JsParse) (st : ExecState) (code : Option Int) : ExecState × Settle :=
  let st1 := processLine parse st st.buffer
  if st1.aborted then (st1, .resolved none)
  else if code == some 0 || st1.lastResult.isSome then (st1, .resolved st1.lastResult)
  else (st1, .rejected code)

/-- The last `result`-typed chunk among the chunks delivered to `onChunk`
(specification-side view of the `lastResult` cache). -/
def lastResultOf (l : List ClaudeStreamChunk) : Option ClaudeStreamChunk :=
  (l.filter (fun c => c.type == "result")).getLast?

/-- Specification-side view of what one complete line contributes to the
`onChunk` stream: nothing for a blank or unparsable line, the parsed
chunk otherwise. -/
def parsedLineOutput (parse : JsParse) (l : List Char) : Option ClaudeStreamChunk :=
  if jsTrimEmpty l then none else parse l

/-- Invariant tying the `lastResult` cache to the delivery log: it is the
last `result`-typed chunk delivered so far (holds for `ExecState.init`
and is preserved by the handlers). -/
def ResultInv (st : ExecState) : Prop :=
  st.lastResult = lastResultOf st.delivered

/- ## Throttled update channel (`updateMessageThrottled`, message-processor.ts 1540–1589) -/

/-- JS truthiness of a `string | null | undefined` value: `null`,
`undefined` and the empty string `''` are all falsy. -/
def jsTruthy (s : Option String) : Bool :=
  !(s.getD ("") == "")

/-- One entry of `private updateState = new Map<string, { lastUpdate: number; queue: string | null }>()`. -/
structure ThrottleEntry where
  lastUpdate : Nat
  queue : Option String
  deriving Repr, DecidableEq

/-- The observable state of the throttle for one sink key
(`key = channel + ':' + messageTs`; entries for distinct keys are
independent, so a single key is modelled).  `entry` is the map entry,
`awaitingFlush` records that an `await adapter.updateMessage(...)` from
the immediate path is pending, `pendingTimeout` is a scheduled
`setTimeout` callback as (fire time, captured queued content), and
`applied` logs the `adapter.updateMessage` invocations as
(time, content) — the source passes `this.truncateForSlack(content)`
to the adapter; `applied` records the pre-truncation content, which
identifies the update. -/
structure ThrottleState where
  entry : Option ThrottleEntry
  awaitingFlush : Bool
  pendingTimeout : Option (Nat × String)
  applied : List (Nat × String)
  deriving Repr, DecidableEq

/-- Throttle state with no entry, nothing pending. -/
def ThrottleState.init : ThrottleState :=
  { entry := none, awaitingFlush := false, pendingTimeout := none, applied := [] }

/-- Events of one sink key's throttle, at absolute times `t`
(`Date.now()` milliseconds):
* `push t content` — `updateMessageThrottled` is invoked (lines 1542–1564);
* `flushComplete t` — the awaited `adapter.updateMessage` of the
  immediate path resolves, running lines 1573–1588;
* `timeoutFire` — the `setTimeout` callback of line 1576 runs. -/
inductive ThrottleEvent where
  | push (t : Nat) (content : String)
  | flushComplete (t : Nat)
  | timeoutFire
  deriving Repr, DecidableEq

/-- One event of `updateMessageThrottled` for a fixed key, translated
clause by clause (`minInterval = 1000`):

* `push`: get-or-create the entry (`lastUpdate: 0, queue: null`); if
  `now - state.lastUpdate < minInterval` then `state.queue = content`,
  else `state.lastUpdate = now; state.queue = null;` and the update is
  issued (`applied`) with the adapter call pending (`awaitingFlush`).
* `flushComplete`: `if (state.queue)` — a JS truthiness check, so a
  queued empty string counts as no queue — schedule a single
  `setTimeout` for `minInterval` later carrying the queued content
  (the entry is not deleted and its queue is not cleared); otherwise
  `this.updateState.delete(key)` (a queued empty string is thereby
  dropped).
* `timeoutFire`: issue the captured queued content and
  `this.updateState.delete(key)`. -/
def throttleStep (st : ThrottleState) : ThrottleEvent → ThrottleState
  | .push t content =>
      let e := st.entry.getD { lastUpdate := 0, queue := none }
      if t - e.lastUpdate < 1000 then
        { st with entry := some { e with queue := some content } }
      else
        { st with
          entry := some { lastUpdate := t, queue := none },
          applied := st.applied ++ [(t, content)],
          awaitingFlush := true }
  | .flushComplete t =>
      match st.entry with
      | some e =>
          if jsTruthy e.queue then
            { st with awaitingFlush := false,
                      pendingTimeout := some (t + 1000, e.queue.getD ("")) }
          else { st with awaitingFlush := false, entry := none }
      | none => { st with awaitingFlush := false }
  | .timeoutFire =>
      match st.pendingTimeout with
      | some (ft, q) =>
          { st with
            pendingTimeout := none,
            applied := st.applied ++ [(ft, q)],
            entry := none }
      | none => st

/-- Run the throttle over a sequence of events. -/
def runThrottle (st : ThrottleState) (evs : List ThrottleEvent) : ThrottleState :=
  evs.foldl throttleStep st

/- ## Session resolver (`resolveSessionId`, message-processor.ts 107–135;
     `getSessions`, claude-code.ts 139–161) -/

/-- An entry of a project's `sessions-index.json`
(`ClaudeSession` in `src/types.ts`), restricted to the fields session
resolution consults: `sessionId` and the `modified` timestamp
(`new Date(s.modified).getTime()` modelled as a `Nat`). -/
structure ClaudeSession where
  sessionId : String
  modified : Nat
  deriving Repr, DecidableEq

/-- Embeds `ClaudeCodeService.getSessions`: read the project's
`sessions-index.json` (`none` models a missing directory/index file or
any thrown error, all of which yield `[]`) and sort the entries by
`modified`, newest first:
`index.entries.sort((a, b) => new Date(b.modified).getTime() - new Date(a.modified).getTime())`. -/
def getSessions (indexEntries : Option (List ClaudeSession)) : List ClaudeSession :=
  match indexEntries with
  | none => []
  | some entries => entries.mergeSort (fun a b => b.modified ≤ a.modified)

/-- Association-list model of a JS `Map<string, β>`: `Map.get`. -/
def mapGet {β : Type} (m : List (String × β)) (k : String) : Option β :=
  (m.find? (fun p => p.1 == k)).map (fun p => p.2)

/-- Models `Map.set`: replace the value if the key is present, else append. -/
def mapSet {β : Type} (m : List (String × β)) (k : String) (v : β) : List (String × β) :=
  if (m.find? (fun p => p.1 == k)).isSome then
    m.map (fun p => if p.1 == k then (k, v) else p)
  else m ++ [(k, v)]

/-- Models `Map.delete`. -/
def mapDelete {β : Type} (m : List (String × β)) (k : String) : List (String × β) :=
  m.filter (fun p => !(p.1 == k))

/-- Outcome of `resolveSessionId`: the resolved id (or `none` = start a
fresh session), the project→session map after the call, and whether
`this.saveState()` was invoked. -/
structure ResolveOutcome where
  sessionId : Option String
  projectSessions : List (String × String)
  savedState : Bool
  deriving Repr, DecidableEq

/-- Embeds `MessageProcessor.resolveSessionId(projectPath, stateSessionId)`
(lines 107–135), with the external session history passed in as
`indexEntries` (what `claude-code.ts` would read from disk):

1. `if (stateSessionId) return stateSessionId;`
2. `const savedSession = this.projectSessions.get(projectPath); if (savedSession) return savedSession;`
3. `const sessions = await getSessions(projectPath); if (sessions.length > 0) { set map; saveState(); return sessions[0].sessionId; }`
4. `return undefined;` -/
def resolveSessionId (indexEntries : Option (List ClaudeSession))
    (projectSessions : List (String × String)) (projectPath : String)
    (stateSessionId : Option String) : ResolveOutcome :=
  if jsTruthy stateSessionId then
    { sessionId := stateSessionId, projectSessions := projectSessions, savedState := false }
  else
    let savedSession := mapGet projectSessions projectPath
    if jsTruthy savedSession then
      { sessionId := savedSession, projectSessions := projectSessions, savedState := false }
    else
      match getSessions indexEntries with
      | [] => { sessionId := none, projectSessions := projectSessions, savedState := false }
      | s :: _ =>
          { sessionId := some s.sessionId,
            projectSessions := mapSet projectSessions projectPath s.sessionId,
            savedState := true }

/- ## Controller state, persistence, and the retry workflow
     (message-processor.ts) -/

/-- Embeds `ChannelState` (message-processor.ts 15–19). -/
structure ChannelState where
  projectPath : Option String := none
  sessionId : Option String := none
  pendingPrompt : Option String := none
  deriving Repr, DecidableEq

/-- Embeds `PendingRetry` (message-processor.ts 21–26). -/
structure PendingRetry where
  prompt : String
  projectDir : String
  channelId : String
  sessionId : Option String := none
  deriving Repr, DecidableEq

/-- The controller's in-memory maps (fields of `MessageProcessor`). -/
structure ControllerState where
  userStates : List (String × ChannelState)
  projectSessions : List (String × String)
  pendingRetries : List (String × PendingRetry)
  deriving Repr, DecidableEq

/-- Embeds `SessionsState` (message-processor.ts 28–33): the serialized document
written by `saveState` — the two top-level mappings. -/
structure SessionsState where
  channels : List (String × ChannelState)
  projectSessions : List (String × String)
  deriving Repr, DecidableEq

/-- The document `saveState` serializes: the full current maps. -/
def serializeState (st : ControllerState) : SessionsState :=
  { channels := st.userStates, projectSessions := st.projectSessions }

/-- Embeds `MessageProcessor.saveState` (lines 91–101): write the full serialized
state; `writeOk = false` models `writeFileSync` throwing, which the
source catches and logs (`consola.warn`).  Returns the in-memory state
(unchanged either way) and the durable copy after the call. -/
def saveState (st : ControllerState) (disk : Option SessionsState) (writeOk : Bool) :
    ControllerState × Option SessionsState :=
  if writeOk then (st, some (serializeState st)) else (st, disk)

/-- The mutation performed by `selectProject` / `selectProjectAndExecute`
on a successful project choice (lines 613–617 / 663–671): bind the
project, clear the channel session id, then `saveState()`.  The returned
`Bool` records whether `saveState` was invoked on the path. -/
def selectProjectMutation (st : ControllerState) (channelId projectPath : String) :
    ControllerState × Bool :=
  let state := (mapGet st.userStates channelId).getD {}
  let state := { state with projectPath := some projectPath, sessionId := none }
  ({ st with userStates := mapSet st.userStates channelId state }, true)

/-- The mutation of `selectSession` for `/session new` (lines 743–751):
clear the channel session id, drop the project's auto-resume entry,
`saveState()`.  Without a bound project the handler returns early with a
user message and mutates nothing. -/
def selectSessionNewMutation (st : ControllerState) (channelId : String) :
    ControllerState × Bool :=
  match mapGet st.userStates channelId with
  | some state =>
      match state.projectPath with
      | some pp =>
          ({ st with
             userStates := mapSet st.userStates channelId { state with sessionId := none },
             projectSessions := mapDelete st.projectSessions pp }, true)
      | none => (st, false)
  | none => (st, false)

/-- The mutation of `selectSession` when a session matching the prefix is
found (lines 764–768): record it on the channel and in the project map,
`saveState()`. -/
def selectSessionFoundMutation (st : ControllerState) (channelId foundSessionId : String) :
    ControllerState × Bool :=
  match mapGet st.userStates channelId with
  | some state =>
      match state.projectPath with
      | some pp =>
          ({ st with
             userStates :=
               mapSet st.userStates channelId { state with sessionId := some foundSessionId },
             projectSessions := mapSet st.projectSessions pp foundSessionId }, true)
      | none => (st, false)
  | none => (st, false)

/-- The `new_session` interaction (handleInteraction, lines 436–445):
if the channel has state, clear its session id, drop the project's
auto-resume entry when a project is bound, `saveState()`. -/
def newSessionInteractionMutation (st : ControllerState) (channelId : String) :
    ControllerState × Bool :=
  match mapGet st.userStates channelId with
  | some state =>
      let ps :=
        match state.projectPath with
        | some pp => mapDelete st.projectSessions pp
        | none => st.projectSessions
      ({ st with
         userStates := mapSet st.userStates channelId { state with sessionId := none },
         projectSessions := ps }, true)
  | none => (st, false)

/-- The mutation of `handleClearSession` (lines 508–525): requires a bound
project; clears the channel session id and the project's auto-resume
entry, then `saveState()`. -/
def clearSessionMutation (st : ControllerState) (channelId : String) :
    ControllerState × Bool :=
  match mapGet st.userStates channelId with
  | some state =>
      match state.projectPath with
      | some pp =>
          ({ st with
             userStates := mapSet st.userStates channelId { state with sessionId := none },
             projectSessions := mapDelete st.projectSessions pp }, true)
      | none => (st, false)
  | none => (st, false)

/-- The awaiting-project-selection path of `handlePrompt`
(lines 784–820): ensure a `ChannelState` exists for the channel
(creating an empty one in the map if missing) and stash the prompt as
`state.pendingPrompt = prompt`.  No `saveState()` call occurs anywhere
on this path. -/
def stashPendingPromptMutation (st : ControllerState) (channelId prompt : String) :
    ControllerState × Bool :=
  let state := (mapGet st.userStates channelId).getD {}
  ({ st with
     userStates := mapSet st.userStates channelId { state with pendingPrompt := some prompt } },
   false)

/-- The pending-prompt consumption in `selectProjectAndExecute`
(lines 682–685): `state.pendingPrompt = undefined;` with no
`saveState()` before re-dispatching the prompt. -/
def consumePendingPromptMutation (st : ControllerState) (channelId : String) :
    ControllerState × Bool :=
  match mapGet st.userStates channelId with
  | some state =>
      match state.pendingPrompt with
      | some _ =>
          ({ st with
             userStates := mapSet st.userStates channelId { state with pendingPrompt := none } },
           false)
      | none => (st, false)
  | none => (st, false)

/-- The completed-run bookkeeping of `handlePrompt` /
`executeWithPermissions` (lines 980–988 / 1390–1397): when the result
carries a (truthy) `session_id`, record it on the channel together with
the project binding, update the project map, `saveState()`. -/
def recordResultSessionMutation (st : ControllerState) (channelId projectDir : String)
    (resultSessionId : Option String) : ControllerState × Bool :=
  if jsTruthy resultSessionId then
    let sid := resultSessionId.getD ("")
    let state := (mapGet st.userStates channelId).getD {}
    let state := { state with sessionId := some sid, projectPath := some projectDir }
    ({ st with
       userStates := mapSet st.userStates channelId state,
       projectSessions := mapSet st.projectSessions projectDir sid }, true)
  else (st, false)

/-- A subprocess invocation requested by the retry workflow: the
arguments `executeWithPermissions` passes to `claudeService.execute`
(lines 1330–1333). -/
structure ExecInvocation where
  projectDir : String
  prompt : String
  sessionId : Option String
  permissionMode : String
  deriving Repr, DecidableEq

/-- What a retry-workflow interaction did: spawned a subprocess run,
reported `Retry request expired or not found.`, or reported
`Retry cancelled.`. -/
inductive RetryAction where
  | executed (inv : ExecInvocation)
  | expired
  | cancelled
  deriving Repr, DecidableEq

/-- The invocation `executeWithPermissions(adapter, context, retryInfo)`
makes: the stored prompt/project/session, under
`permissionMode: 'bypassPermissions'`. -/
def executeWithPermissionsInvocation (r : PendingRetry) : ExecInvocation :=
  { projectDir := r.projectDir, prompt := r.prompt, sessionId := r.sessionId,
    permissionMode := "bypassPermissions" }

/-- Embeds `handleRetryWithPermissions` (lines 1260–1280): look up the id; if
absent, report expired and do nothing; otherwise delete the entry first
and then re-execute with full permissions. -/
def handleRetryWithPermissions (pending : List (String × PendingRetry)) (retryId : String) :
    List (String × PendingRetry) × RetryAction :=
  match mapGet pending retryId with
  | none => (pending, .expired)
  | some retryInfo =>
      (mapDelete pending retryId, .executed (executeWithPermissionsInvocation retryInfo))

/-- The `cancel_retry` interaction (handleInteraction, lines 456–459):
`this.pendingRetries.delete(value)` and a cancellation message — no
subprocess invocation. -/
def cancelRetryInteraction (pending : List (String × PendingRetry)) (retryId : String) :
    List (String × PendingRetry) × RetryAction :=
  (mapDelete pending retryId, .cancelled)

/- ## Byte-limit truncation (`truncateToByteLimit` / `truncateForSlack`,
     message-processor.ts 1429–1537) -/

/-- A JS string as its UTF-16 code units (`str.length`, `str.slice` count
these units; lone surrogates are representable). -/
abbrev JsString := List Nat

def isHighSurrogate (u : Nat) : Bool := 0xD800 ≤ u && u ≤ 0xDBFF

def isLowSurrogate (u : Nat) : Bool := 0xDC00 ≤ u && u ≤ 0xDFFF

/-- UTF-8 byte count of a single UTF-16 unit taken as a scalar; an
unpaired surrogate is encoded by Node as U+FFFD, 3 bytes, which this
formula also yields since surrogates lie above 0x800. -/
def utf16UnitUtf8Len (u : Nat) : Nat :=
  if u < 0x80 then 1 else if u < 0x800 then 2 else 3

/-- Models `Buffer.byteLength(str, 'utf8')`: a high surrogate directly
followed by a low surrogate encodes as one 4-byte scalar; every other
unit encodes on its own (unpaired surrogates as U+FFFD, 3 bytes). -/
def jsByteLength : JsString → Nat
  | [] => 0
  | [u] => utf16UnitUtf8Len u
  | u :: v :: rest =>
      if isHighSurrogate u && isLowSurrogate v then 4 + jsByteLength rest
      else utf16UnitUtf8Len u + jsByteLength (v :: rest)

/-- The binary-search loop of `truncateToByteLimit` (lines 1508–1517):

```
while (low < high) {
  const mid = Math.floor((low + high + 1) / 2);
  if (this.getByteLength(str.slice(0, mid)) <= maxBytes) low = mid;
  else high = mid - 1;
}
``` -/
def truncLoop (s : JsString) (maxBytes low high : Nat) : Nat :=
  if low < high then
    let mid := (low + high + 1) / 2
    if jsByteLength (s.take mid) ≤ maxBytes then truncLoop s maxBytes mid high
    else truncLoop s maxBytes low (mid - 1)
  else low
termination_by high - low
decreasing_by
  · have h2 : 2 * (low + 1) ≤ low + high + 1 := by omega
    have h3 : 2 * (low + 1) / 2 ≤ (low + high + 1) / 2 := Nat.div_le_div_right h2
    rw [Nat.mul_div_cancel_left _ (by norm_num : 0 < 2)] at h3
    omega
  · have h2 := Nat.div_mul_le_self (low + high + 1) 2
    omega

/-- Embeds `truncateToByteLimit(str, maxBytes)` (lines 1503–1519). -/
def truncateToByteLimit (s : JsString) (maxBytes : Nat) : JsString :=
  if jsByteLength s ≤ maxBytes then s
  else s.take (truncLoop s maxBytes 0 s.length)

/-- Embeds the constant `SLACK_MAX_BYTES` (line 1431). -/
def SLACK_MAX_BYTES : Nat := 38000

/-- BMP-only Lean string literal viewed as UTF-16 units. -/
def bmpUnits (s : String) : JsString :=
  s.toList.map (fun c => c.toNat)

/-- The fixed truncation notice appended on the truncation path of
`truncateForSlack` (line 1536). -/
def truncationNotice : JsString :=
  bmpUnits ("\n\n_⚠️ Message truncated (too long for Slack)_")

/-- Embeds `truncateForSlack(content)` (lines 1524–1537), taken after
`markdownToSlack` has produced `converted` (the conversion is a pure
string-to-string rewrite applied first; the theorems below quantify over
every possible `converted`, hence over every input `content`):

```
if (byteLength <= SLACK_MAX_BYTES) return converted;
const truncated = this.truncateToByteLimit(converted, SLACK_MAX_BYTES - 100);
return `...truncated...\n\n..._ notice`;
``` -/
def truncateForSlack (converted : JsString) : JsString :=
  if jsByteLength converted ≤ SLACK_MAX_BYTES then converted
  else truncateToByteLimit converted (SLACK_MAX_BYTES - 100) ++ truncationNotice

/- ============================================================ -/
/- ## Theorems -/
/- ============================================================ -/

/- ### Association-map helper lemmas -/

theorem mapGet_mapDelete_self {β : Type} (m : List (String × β)) (k : String) :
    mapGet (mapDelete m k) k = none := by
  have h : List.find? (fun p => p.1 == k) (mapDelete m k) = none := by
    rw [List.find?_eq_none]
    intro x hx
    have hmem := (List.mem_filter.mp hx).2
    simp only [Bool.not_eq_eq_eq_not, Bool.not_true, beq_eq_false_iff_ne] at hmem
    simpa using hmem
  simp [mapGet, h]

/- ### C8: abort idempotence -/

/-- C8.  The abort handle is idempotent: for every run state, calling
abort twice leaves the same state as calling it once, the aborted flag
is set (and stays set) after the first call, the second call sends no
further termination signal, and a single call sends at most one signal. -/
theorem C8_abort_idempotent :
    (∀ st : ExecState, abortRun (abortRun st) = abortRun st)
    ∧ (∀ st : ExecState, (abortRun st).aborted = true)
    ∧ (∀ st : ExecState, (abortRun (abortRun st)).killSignals = (abortRun st).killSignals)
    ∧ (∀ st : ExecState, (abortRun st).killSignals ≤ st.killSignals + 1) := by
  refine ⟨fun st => ?_, fun st => ?_, fun st => ?_, fun st => ?_⟩ <;>
    cases h : st.aborted <;> simp [abortRun, h]

/- ### C6: retry workflow -/

/-- C6.  Confirming a retry with an unknown id spawns nothing and
reports the expired-request condition; confirming a valid id deletes the
PendingRetry and re-executes with the stored prompt/project/session
under `bypassPermissions`, and a second confirmation of the same id
reports expired; cancelling deletes without any subprocess invocation. -/
theorem C6_retry_workflow :
    (∀ (pending : List (String × PendingRetry)) (id : String),
      mapGet pending id = none →
      handleRetryWithPermissions pending id = (pending, .expired))
    ∧ (∀ (pending : List (String × PendingRetry)) (id : String) (r : PendingRetry),
      mapGet pending id = some r →
      handleRetryWithPermissions pending id =
        (mapDelete pending id,
         .executed { projectDir := r.projectDir, prompt := r.prompt,
                     sessionId := r.sessionId, permissionMode := "bypassPermissions" })
      ∧ handleRetryWithPermissions (mapDelete pending id) id =
          (mapDelete pending id, .expired))
    ∧ (∀ (pending : List (String × PendingRetry)) (id : String),
      cancelRetryInteraction pending id = (mapDelete pending id, .cancelled)) := by
  refine ⟨fun pending id h => ?_, fun pending id r h => ⟨?_, ?_⟩, fun pending id => rfl⟩
  · simp [handleRetryWithPermissions, h]
  · simp [handleRetryWithPermissions, h, executeWithPermissionsInvocation]
  · simp [handleRetryWithPermissions, mapGet_mapDelete_self]

/-- Witness for C6 at a concrete pending map and id. -/
theorem C6_retry_workflow_witness :
    mapGet [("id1", ({ prompt := "fix", projectDir := "/repo/a", channelId := "C1",
                       sessionId := some "s1" } : PendingRetry))] "id1" =
      some { prompt := "fix", projectDir := "/repo/a", channelId := "C1", sessionId := some "s1" }
    ∧ (handleRetryWithPermissions
         [("id1", { prompt := "fix", projectDir := "/repo/a", channelId := "C1",
                    sessionId := some "s1" })] "id1" =
        ([], .executed { projectDir := "/repo/a", prompt := "fix", sessionId := some "s1",
                         permissionMode := "bypassPermissions" })
      ∧ handleRetryWithPermissions [] "id1" = ([], .expired)) := by
  have h2 := (C6_retry_workflow.2.1
    [("id1", { prompt := "fix", projectDir := "/repo/a", channelId := "C1",
               sessionId := some "s1" })] "id1"
    { prompt := "fix", projectDir := "/repo/a", channelId := "C1", sessionId := some "s1" }
    (by decide))
  exact ⟨by decide, by simpa using h2⟩

/- ### C5: write-through persistence -/

/-- C5 counterexample.  Stashing a prompt while awaiting project
selection mutates the channel state (it creates the channel entry and
sets `pendingPrompt`) but invokes no state write: the claim that every
mutation of a channel's state writes through immediately is false at
this concrete input. -/
theorem C5_counterexample :
    (stashPendingPromptMutation
        { userStates := [], projectSessions := [], pendingRetries := [] }
        "C1" "fix the bug").1.userStates =
      [("C1", { projectPath := none, sessionId := none, pendingPrompt := some "fix the bug" })]
    ∧ (stashPendingPromptMutation
        { userStates := [], projectSessions := [], pendingRetries := [] }
        "C1" "fix the bug").2 = false := by
  constructor <;> rfl

/-- C5 amended.  Mutations of the project binding / session id and of
the project-session map (project selection, session switch, session
clearing, the new-session interaction, recording a completed run's
session id, and the resolver's history write-back) either invoke
`saveState` or leave the state untouched on their early-return paths;
`saveState` itself writes the full serialized state, leaves the
in-memory maps unchanged, and swallows a failed write (the durable copy
simply keeps its previous contents).  The exceptions, forced by the
counterexample, are the `pendingPrompt` mutations: stashing a pending
prompt and consuming it mutate the in-memory channel state without any
write. -/
theorem C5_amended_write_through :
    (∀ (st : ControllerState) (c p : String), (selectProjectMutation st c p).2 = true)
    ∧ (∀ (st : ControllerState) (c : String),
        (selectSessionNewMutation st c).2 = true ∨ (selectSessionNewMutation st c).1 = st)
    ∧ (∀ (st : ControllerState) (c s : String),
        (selectSessionFoundMutation st c s).2 = true ∨ (selectSessionFoundMutation st c s).1 = st)
    ∧ (∀ (st : ControllerState) (c : String),
        (newSessionInteractionMutation st c).2 = true
        ∨ (newSessionInteractionMutation st c).1 = st)
    ∧ (∀ (st : ControllerState) (c : String),
        (clearSessionMutation st c).2 = true ∨ (clearSessionMutation st c).1 = st)
    ∧ (∀ (st : ControllerState) (c p : String) (sid : Option String),
        (recordResultSessionMutation st c p sid).2 = true
        ∨ (recordResultSessionMutation st c p sid).1 = st)
    ∧ (∀ (idx : Option (List ClaudeSession)) (ps : List (String × String)) (path : String)
        (sid : Option String),
        (resolveSessionId idx ps path sid).savedState = true
        ∨ (resolveSessionId idx ps path sid).projectSessions = ps)
    ∧ (∀ (st : ControllerState) (c p : String), (stashPendingPromptMutation st c p).2 = false)
    ∧ (∀ (st : ControllerState) (c : String), (consumePendingPromptMutation st c).2 = false)
    ∧ (∀ (st : ControllerState) (disk : Option SessionsState) (ok : Bool),
        (saveState st disk ok).1 = st)
    ∧ (∀ (st : ControllerState) (disk : Option SessionsState),
        (saveState st disk true).2 = some (serializeState st))
    ∧ (∀ (st : ControllerState) (disk : Option SessionsState),
        (saveState st disk false).2 = disk) := by
  refine ⟨fun st c p => rfl, fun st c => ?_, fun st c s => ?_, fun st c => ?_, fun st c => ?_,
    fun st c p sid => ?_, fun idx ps path sid => ?_, fun st c p => rfl, fun st c => ?_,
    fun st disk ok => ?_, fun st disk => rfl, fun st disk => rfl⟩
  · rcases hg : mapGet st.userStates c with _ | state
    · simp [selectSessionNewMutation, hg]
    · rcases hp : state.projectPath with _ | pp <;> simp [selectSessionNewMutation, hg, hp]
  · rcases hg : mapGet st.userStates c with _ | state
    · simp [selectSessionFoundMutation, hg]
    · rcases hp : state.projectPath with _ | pp <;> simp [selectSessionFoundMutation, hg, hp]
  · rcases hg : mapGet st.userStates c with _ | state <;>
      simp [newSessionInteractionMutation, hg]
  · rcases hg : mapGet st.userStates c with _ | state
    · simp [clearSessionMutation, hg]
    · rcases hp : state.projectPath with _ | pp <;> simp [clearSessionMutation, hg, hp]
  · by_cases h : jsTruthy sid = true <;> simp [recordResultSessionMutation, h]
  · by_cases h1 : jsTruthy sid = true
    · simp [resolveSessionId, h1]
    · by_cases h2 : jsTruthy (mapGet ps path) = true
      · simp [resolveSessionId, h1, h2]
      · rcases hg : getSessions idx with _ | ⟨s, rest⟩ <;>
          simp [resolveSessionId, h1, h2, hg]
  · rcases hg : mapGet st.userStates c with _ | state
    · simp [consumePendingPromptMutation, hg]
    · rcases hp : state.pendingPrompt with _ | pp <;> simp [consumePendingPromptMutation, hg, hp]
  · cases ok <;> rfl

/- ### C3: session resolution priority chain -/

theorem getSessions_head_most_recent (entries : List ClaudeSession) (s : ClaudeSession)
    (rest : List ClaudeSession) (h : getSessions (some entries) = s :: rest) :
    ∀ e ∈ entries, e.modified ≤ s.modified := by
  intro e he
  unfold getSessions at h
  have hperm := List.mergeSort_perm entries (fun a b => decide (b.modified ≤ a.modified))
  have hmem : e ∈ s :: rest := by
    rw [← h]
    exact hperm.mem_iff.mpr he
  have hsorted : List.Pairwise (fun a b => (decide (b.modified ≤ a.modified)) = true)
      (s :: rest) := by
    rw [← h]
    exact List.sorted_mergeSort
      (fun a b c hab hbc => by simp only [decide_eq_true_eq] at hab hbc ⊢; omega)
      (fun a b => by
        rcases Nat.le_total b.modified a.modified with hl | hl <;> simp [hl])
      entries
  rcases List.mem_cons.mp hmem with rfl | hmem2
  · exact Nat.le_refl _
  · have hp := (List.pairwise_cons.mp hsorted).1 e hmem2
    simpa using hp

/-- C3.  Session resolution follows the first-match-wins priority chain:
(1) a provided (truthy) explicit session id is returned unchanged with no
side effect; (2) otherwise a truthy ProjectSessionMap entry is returned
with no side effect; (3) otherwise, when the external history is
non-empty, its head — which has the maximal `modified` timestamp among
all index entries — is returned, written back into the map, and
persisted via `saveState`; (4) otherwise the result is absent.
Resolution is a total function: no error outcome exists. -/
theorem C3_session_resolution_priority :
    (∀ (idx : Option (List ClaudeSession)) (ps : List (String × String)) (path s : String),
      jsTruthy (some s) = true →
      resolveSessionId idx ps path (some s) =
        { sessionId := some s, projectSessions := ps, savedState := false })
    ∧ (∀ (idx : Option (List ClaudeSession)) (ps : List (String × String)) (path : String)
        (sid : Option String),
      ¬ jsTruthy sid = true → jsTruthy (mapGet ps path) = true →
      resolveSessionId idx ps path sid =
        { sessionId := mapGet ps path, projectSessions := ps, savedState := false })
    ∧ (∀ (entries : List ClaudeSession) (ps : List (String × String)) (path : String)
        (sid : Option String) (s : ClaudeSession) (rest : List ClaudeSession),
      ¬ jsTruthy sid = true → ¬ jsTruthy (mapGet ps path) = true →
      getSessions (some entries) = s :: rest →
      resolveSessionId (some entries) ps path sid =
        { sessionId := some s.sessionId, projectSessions := mapSet ps path s.sessionId,
          savedState := true }
      ∧ ∀ e ∈ entries, e.modified ≤ s.modified)
    ∧ (∀ (idx : Option (List ClaudeSession)) (ps : List (String × String)) (path : String)
        (sid : Option String),
      ¬ jsTruthy sid = true → ¬ jsTruthy (mapGet ps path) = true →
      getSessions idx = [] →
      resolveSessionId idx ps path sid =
        { sessionId := none, projectSessions := ps, savedState := false }) := by
  refine ⟨fun idx ps path s h => ?_, fun idx ps path sid h1 h2 => ?_,
    fun entries ps path sid s rest h1 h2 hg => ⟨?_, getSessions_head_most_recent entries s rest hg⟩,
    fun idx ps path sid h1 h2 hg => ?_⟩
  · simp [resolveSessionId, h]
  · simp [resolveSessionId, h1, h2]
  · simp [resolveSessionId, h1, h2, hg]
  · simp [resolveSessionId, h1, h2, hg]

/-- Witness for C3: a fresh explicit id wins; with no explicit id, no map
entry, and a two-entry history the newest entry (modified 9) is chosen
and written back. -/
theorem C3_session_resolution_priority_witness :
    jsTruthy (some "s0") = true
    ∧ resolveSessionId none [] "/p" (some "s0") =
        { sessionId := some "s0", projectSessions := [], savedState := false }
    ∧ getSessions (some [{ sessionId := "s1", modified := 5 },
                         { sessionId := "s2", modified := 9 }]) =
        [{ sessionId := "s2", modified := 9 }, { sessionId := "s1", modified := 5 }]
    ∧ resolveSessionId (some [{ sessionId := "s1", modified := 5 },
                              { sessionId := "s2", modified := 9 }]) [] "/p" none =
        { sessionId := some "s2", projectSessions := [("/p", "s2")], savedState := true } := by
  have hg : getSessions (some [{ sessionId := "s1", modified := 5 },
                               { sessionId := "s2", modified := 9 }]) =
      [{ sessionId := "s2", modified := 9 }, { sessionId := "s1", modified := 5 }] := by
    simp [getSessions, List.mergeSort, List.merge]
  have h3 := (C3_session_resolution_priority.2.2.1
    [{ sessionId := "s1", modified := 5 }, { sessionId := "s2", modified := 9 }]
    [] "/p" none { sessionId := "s2", modified := 9 } [{ sessionId := "s1", modified := 5 }]
    (by decide) (by decide) hg).1
  have h1 := C3_session_resolution_priority.1 none [] "/p" "s0" (by decide)
  exact ⟨by decide, h1, hg, h3.trans (by rfl)⟩

/- ### C1: throttled update channel -/

/-- C1 counterexample.  Pushes for one key at t=10000, t=10300 and
t=10600 (the spec's t=0/300ms/600ms scenario, at realistic absolute
clock values) each apply immediately — three applied updates, never
coalesced — when the adapter's update promise resolves quickly (here at
50ms after each flush): the flush-completion path with an empty queue
deletes the per-key entry (message-processor.ts line 1587), so the next
push finds no entry, takes the immediate path, and the claimed
at-most-one-update-per-second policy fails. -/
theorem C1_counterexample :
    (runThrottle ThrottleState.init
      [.push 10000 "a", .flushComplete 10050, .push 10300 "b", .flushComplete 10350,
       .push 10600 "c", .flushComplete 10650]).applied =
      [(10000, "a"), (10300, "b"), (10600, "c")] := by
  rfl

/-- C1 amended.  Coalescing happens only while the per-key entry is
alive, i.e. while the first push's awaited adapter call is still
pending: if the adapter call issued by the push at `t0` completes at
some time `c` after the pushes at `t0+300` and `t0+600` have queued,
and the latest queued content is truthy (non-empty), then exactly two
updates are applied — the first at `t0`, and one coalesced update
carrying the latest content, applied 1000ms after the adapter call
completed (`c + 1000`), not at the fixed interval boundary `t0 + 1000`.
A queued empty string is falsy for the source's `if (state.queue)`
check: the entry is deleted and the queued content silently dropped, so
the same trace with `""` as the latest content applies only the first
update.  If instead the adapter call completes with an empty queue, the
entry is deleted and the next push applies immediately regardless of
elapsed time (see the counterexample). -/
theorem C1_amended_coalescing :
    (∀ (t0 c : Nat) (c1 c2 c3 : String), 1000 ≤ t0 → t0 + 600 ≤ c → c3 ≠ "" →
      (runThrottle ThrottleState.init
        [.push t0 c1, .push (t0 + 300) c2, .push (t0 + 600) c3,
         .flushComplete c, .timeoutFire]).applied = [(t0, c1), (c + 1000, c3)])
    ∧ (∀ (t0 c : Nat) (c1 c2 : String), 1000 ≤ t0 → t0 + 600 ≤ c →
      (runThrottle ThrottleState.init
        [.push t0 c1, .push (t0 + 300) c2, .push (t0 + 600) "",
         .flushComplete c, .timeoutFire]).applied = [(t0, c1)]) := by
  have s1 : ∀ (t0 : Nat) (c1 : String), 1000 ≤ t0 →
      throttleStep ThrottleState.init (.push t0 c1) =
        ⟨some ⟨t0, none⟩, true, none, [(t0, c1)]⟩ := by
    intro t0 c1 h0
    simp [throttleStep, ThrottleState.init]
    omega
  have s2 : ∀ (t0 : Nat) (c1 c2 : String),
      throttleStep ⟨some ⟨t0, none⟩, true, none, [(t0, c1)]⟩ (.push (t0 + 300) c2) =
        ⟨some ⟨t0, some c2⟩, true, none, [(t0, c1)]⟩ := by
    intro t0 c1 c2
    simp [throttleStep]
  have s3 : ∀ (t0 : Nat) (c1 c2 c3 : String),
      throttleStep ⟨some ⟨t0, some c2⟩, true, none, [(t0, c1)]⟩ (.push (t0 + 600) c3) =
        ⟨some ⟨t0, some c3⟩, true, none, [(t0, c1)]⟩ := by
    intro t0 c1 c2 c3
    simp [throttleStep]
  refine ⟨fun t0 c c1 c2 c3 h0 _hc hq => ?_, fun t0 c c1 c2 h0 _hc => ?_⟩
  · have s4 : throttleStep ⟨some ⟨t0, some c3⟩, true, none, [(t0, c1)]⟩ (.flushComplete c) =
        ⟨some ⟨t0, some c3⟩, false, some (c + 1000, c3), [(t0, c1)]⟩ := by
      simp [throttleStep, jsTruthy, hq]
    have s5 : throttleStep ⟨some ⟨t0, some c3⟩, false, some (c + 1000, c3), [(t0, c1)]⟩
        .timeoutFire = ⟨none, false, none, [(t0, c1), (c + 1000, c3)]⟩ := by
      simp [throttleStep]
    simp only [runThrottle, List.foldl, s1 t0 c1 h0, s2 t0 c1 c2, s3 t0 c1 c2 c3, s4, s5]
  · have s4 : throttleStep ⟨some ⟨t0, some ""⟩, true, none, [(t0, c1)]⟩ (.flushComplete c) =
        ⟨none, false, none, [(t0, c1)]⟩ := by
      simp [throttleStep, jsTruthy]
    have s5 : throttleStep ⟨none, false, none, [(t0, c1)]⟩ .timeoutFire =
        ⟨none, false, none, [(t0, c1)]⟩ := by
      simp [throttleStep]
    simp only [runThrottle, List.foldl, s1 t0 c1 h0, s2 t0 c1 c2, s3 t0 c1 c2 "", s4, s5]

/-- Witness for the amended C1 at t0 = 10000 with the adapter call
completing at c = 10700: with truthy latest content two updates are
applied, the coalesced one at 11700; with an empty-string latest content
only the first update is applied. -/
theorem C1_amended_coalescing_witness :
    1000 ≤ 10000 ∧ 10000 + 600 ≤ 10700 ∧ ("c" : String) ≠ ""
    ∧ (runThrottle ThrottleState.init
        [.push 10000 "a", .push (10000 + 300) "b", .push (10000 + 600) "c",
         .flushComplete 10700, .timeoutFire]).applied = [(10000, "a"), (10700 + 1000, "c")]
    ∧ (runThrottle ThrottleState.init
        [.push 10000 "a", .push (10000 + 300) "b", .push (10000 + 600) "",
         .flushComplete 10700, .timeoutFire]).applied = [(10000, "a")] := by
  exact ⟨by omega, by omega, by decide,
    C1_amended_coalescing.1 10000 10700 "a" "b" "c" (by omega) (by omega) (by decide),
    C1_amended_coalescing.2 10000 10700 "a" "b" (by omega) (by omega)⟩

/- ### Execution orchestrator: stream lemmas and C7, C2, C4, C10 -/

theorem processLine_buffer (parse : JsParse) (st : ExecState) (l : List Char) :
    (processLine parse st l).buffer = st.buffer := by
  unfold processLine
  split
  · rfl
  · cases h : parse l <;> rfl

theorem processLine_aborted (parse : JsParse) (st : ExecState) (l : List Char) :
    (processLine parse st l).aborted = st.aborted := by
  unfold processLine
  split
  · rfl
  · cases h : parse l <;> rfl

theorem processLine_setBuffer (parse : JsParse) (st : ExecState) (b l : List Char) :
    processLine parse { st with buffer := b } l = { processLine parse st l with buffer := b } := by
  unfold processLine
  split
  · rfl
  · cases h : parse l <;> rfl

theorem processLine_delivered (parse : JsParse) (st : ExecState) (l : List Char) :
    (processLine parse st l).delivered = st.delivered ++ (parsedLineOutput parse l).toList := by
  unfold processLine parsedLineOutput
  split
  · simp
  · cases h : parse l <;> simp

theorem lastResultOf_append_singleton (xs : List ClaudeStreamChunk) (c : ClaudeStreamChunk) :
    lastResultOf (xs ++ [c]) =
      if c.type == "result" then some c else lastResultOf xs := by
  unfold lastResultOf
  rw [List.filter_append]
  cases h : c.type == "result" <;> simp [h]

theorem processLine_resultInv (parse : JsParse) (st : ExecState) (l : List Char)
    (h : ResultInv st) : ResultInv (processLine parse st l) := by
  unfold ResultInv at h ⊢
  unfold processLine
  split
  · exact h
  · cases hp : parse l with
    | none => exact h
    | some chunk =>
        simp only [lastResultOf_append_singleton, h]

theorem foldl_processLine_buffer (parse : JsParse) (lines : List (List Char)) (st : ExecState) :
    (lines.foldl (processLine parse) st).buffer = st.buffer := by
  induction lines generalizing st with
  | nil => rfl
  | cons l ls ih => rw [List.foldl_cons, ih, processLine_buffer]

theorem foldl_processLine_aborted (parse : JsParse) (lines : List (List Char)) (st : ExecState) :
    (lines.foldl (processLine parse) st).aborted = st.aborted := by
  induction lines generalizing st with
  | nil => rfl
  | cons l ls ih => rw [List.foldl_cons, ih, processLine_aborted]

theorem foldl_processLine_delivered (parse : JsParse) (lines : List (List Char))
    (st : ExecState) :
    (lines.foldl (processLine parse) st).delivered =
      st.delivered ++ lines.filterMap (parsedLineOutput parse) := by
  induction lines generalizing st with
  | nil => simp
  | cons l ls ih =>
      rw [List.foldl_cons, ih, processLine_delivered, List.filterMap_cons]
      cases h : parsedLineOutput parse l <;> simp [h]

theorem foldl_processLine_resultInv (parse : JsParse) (lines : List (List Char))
    (st : ExecState) (h : ResultInv st) :
    ResultInv (lines.foldl (processLine parse) st) := by
  induction lines generalizing st with
  | nil => exact h
  | cons l ls ih => exact ih _ (processLine_resultInv parse st l h)

theorem splitOnNl_ne_nil (l : List Char) : splitOnNl l ≠ [] := by
  induction l with
  | nil => simp [splitOnNl]
  | cons c cs ih =>
      unfold splitOnNl
      split
      · simp
      · cases h : splitOnNl cs <;> simp

theorem splitOnNl_mem_no_nl (l : List Char) : ∀ p ∈ splitOnNl l, '\n' ∉ p := by
  induction l with
  | nil =>
      intro p hp
      simp [splitOnNl] at hp
      simp [hp]
  | cons c cs ih =>
      intro p hp
      unfold splitOnNl at hp
      by_cases hc : c = '\n'
      · rw [if_pos hc] at hp
        rcases List.mem_cons.mp hp with rfl | hp2
        · simp
        · exact ih p hp2
      · rw [if_neg hc] at hp
        cases hS : splitOnNl cs with
        | nil => exact absurd hS (splitOnNl_ne_nil cs)
        | cons s1 srest =>
            rw [hS] at hp
            rcases List.mem_cons.mp hp with rfl | hp2
            · intro hmem
              rcases List.mem_cons.mp hmem with h1 | h2
              · exact hc h1.symm
              · exact ih s1 (hS ▸ List.mem_cons_self s1 srest) h2
            · exact ih p (hS ▸ List.mem_cons_of_mem s1 hp2)

theorem getLastD_mem {α : Type} (l : List α) (d : α) (h : l ≠ []) : l.getLastD d ∈ l := by
  induction l generalizing d with
  | nil => exact absurd rfl h
  | cons a as ih =>
      rw [List.getLastD_cons]
      cases has : as with
      | nil => simp
      | cons b bs =>
          exact List.mem_cons_of_mem a (has ▸ ih a (by simp [has]))

theorem splitOnNl_single_of_no_nl (l : List Char) (h : '\n' ∉ l) : splitOnNl l = [l] := by
  induction l with
  | nil => rfl
  | cons c cs ih =>
      have hc : c ≠ '\n' := fun hcc => h (hcc ▸ List.mem_cons_self c cs)
      have hcs : '\n' ∉ cs := fun hm => h (List.mem_cons_of_mem c hm)
      unfold splitOnNl
      rw [if_neg hc, ih hcs]

theorem splitOnNl_buffer_newline (buf cs : List Char) (h : '\n' ∉ buf) :
    splitOnNl (buf ++ '\n' :: cs) = buf :: splitOnNl cs := by
  induction buf with
  | nil => simp [splitOnNl]
  | cons c rest ih =>
      have hc : c ≠ '\n' := fun hcc => h (hcc ▸ List.mem_cons_self c rest)
      have hrest : '\n' ∉ rest := fun hm => h (List.mem_cons_of_mem c hm)
      rw [List.cons_append, splitOnNl]
      rw [if_neg hc, ih hrest]

theorem onStdoutData_nil (parse : JsParse) (st : ExecState) (h : '\n' ∉ st.buffer) :
    onStdoutData parse st [] = st := by
  unfold onStdoutData
  rw [List.append_nil, splitOnNl_single_of_no_nl st.buffer h]
  simp

theorem onStdoutData_newline (parse : JsParse) (st : ExecState) (cs : List Char)
    (h : '\n' ∉ st.buffer) :
    onStdoutData parse st ('\n' :: cs) =
      onStdoutData parse { processLine parse st st.buffer with buffer := [] } cs := by
  cases hS : splitOnNl cs with
  | nil => exact absurd hS (splitOnNl_ne_nil cs)
  | cons s1 srest =>
      unfold onStdoutData
      rw [splitOnNl_buffer_newline st.buffer cs h, hS, List.nil_append, hS]
      simp only [List.dropLast_cons₂, List.foldl_cons, List.getLastD_cons]
      rw [processLine_setBuffer]

theorem onStdoutData_cons (parse : JsParse) (st : ExecState) (c : Char) (cs : List Char) :
    onStdoutData parse st (c :: cs) =
      onStdoutData parse { st with buffer := st.buffer ++ [c] } cs := by
  unfold onStdoutData
  rw [show st.buffer ++ c :: cs = (st.buffer ++ [c]) ++ cs by simp]

theorem onStdoutData_buffer (parse : JsParse) (st : ExecState) (data : List Char) :
    (onStdoutData parse st data).buffer = (splitOnNl (st.buffer ++ data)).getLastD [] := by
  unfold onStdoutData
  rw [foldl_processLine_buffer]

theorem onStdoutData_no_nl_buffer (parse : JsParse) (st : ExecState) (data : List Char) :
    '\n' ∉ (onStdoutData parse st data).buffer := by
  rw [onStdoutData_buffer]
  exact splitOnNl_mem_no_nl (st.buffer ++ data) _
    (getLastD_mem _ _ (splitOnNl_ne_nil (st.buffer ++ data)))

theorem onStdoutData_append (parse : JsParse) (st : ExecState) (a b : List Char)
    (h : '\n' ∉ st.buffer) :
    onStdoutData parse (onStdoutData parse st a) b = onStdoutData parse st (a ++ b) := by
  induction a generalizing st with
  | nil => rw [onStdoutData_nil parse st h, List.nil_append]
  | cons c cs ih =>
      by_cases hc : c = '\n'
      · subst hc
        rw [onStdoutData_newline parse st cs h, ih _ (by simp),
          ← onStdoutData_newline parse st (cs ++ b) h, List.cons_append]
      · rw [onStdoutData_cons parse st c cs,
          ih _ (by simp [h, Ne.symm hc]),
          ← onStdoutData_cons parse st c (cs ++ b), List.cons_append]

theorem onStdoutData_delivered (parse : JsParse) (st : ExecState) (data : List Char) :
    (onStdoutData parse st data).delivered =
      st.delivered ++
        ((splitOnNl (st.buffer ++ data)).dropLast).filterMap (parsedLineOutput parse) := by
  unfold onStdoutData
  rw [foldl_processLine_delivered]

theorem onStdoutData_aborted (parse : JsParse) (st : ExecState) (data : List Char) :
    (onStdoutData parse st data).aborted = st.aborted := by
  unfold onStdoutData
  rw [foldl_processLine_aborted]

/-- C7.  The stdout handler buffers partial lines across I/O chunks —
feeding the byte stream in two `'data'` events yields exactly the state
of feeding their concatenation — and the chunks delivered to `onChunk`
are precisely the parses of the complete newline-terminated lines, in
arrival order, with blank and malformed lines dropped silently
(a malformed line contributes nothing and does not disturb later valid
lines); the retained buffer never contains a newline.  Parsing is a
total function, so no line can throw. -/
theorem C7_stream_line_discipline :
    (∀ (parse : JsParse) (st : ExecState) (a b : List Char), '\n' ∉ st.buffer →
      onStdoutData parse (onStdoutData parse st a) b = onStdoutData parse st (a ++ b))
    ∧ (∀ (parse : JsParse) (st : ExecState) (data : List Char),
      (onStdoutData parse st data).delivered =
        st.delivered ++
          ((splitOnNl (st.buffer ++ data)).dropLast).filterMap (parsedLineOutput parse))
    ∧ (∀ (parse : JsParse) (st : ExecState) (data : List Char),
      '\n' ∉ (onStdoutData parse st data).buffer) :=
  ⟨onStdoutData_append, onStdoutData_delivered, onStdoutData_no_nl_buffer⟩

/-- Witness for C7 at a concrete parse function and stream split. -/
theorem C7_stream_line_discipline_witness :
    ('\n' ∉ ExecState.init.buffer)
    ∧ onStdoutData (fun l => if l = ['r'] then some { type := "result" } else none)
        (onStdoutData (fun l => if l = ['r'] then some { type := "result" } else none)
          ExecState.init ['b', 'a', 'd', '\n', 'r'])
        ['\n', 'r', '\n', 'p']
      = onStdoutData (fun l => if l = ['r'] then some { type := "result" } else none)
          ExecState.init (['b', 'a', 'd', '\n', 'r'] ++ ['\n', 'r', '\n', 'p']) := by
  exact ⟨by decide,
    C7_stream_line_discipline.1 (fun l => if l = ['r'] then some { type := "result" } else none)
      ExecState.init ['b', 'a', 'd', '\n', 'r'] ['\n', 'r', '\n', 'p'] (by decide)⟩

/-- C2.  On subprocess exit (after the leftover buffer is processed):
if the run was aborted the promise resolves to null; otherwise, if the
exit code is zero or a result chunk was ever seen, it resolves with the
last `result`-typed chunk delivered to `onChunk` (which is `none` when
the process emitted no parsable result at all); otherwise it rejects
with the execution-failure error carrying the exit code. -/
theorem C2_exit_settlement (parse : JsParse) (st : ExecState) (code : Option Int)
    (h : ResultInv st) :
    (st.aborted = true →
      onClose parse st code = (processLine parse st st.buffer, .resolved none))
    ∧ (st.aborted = false →
      (code = some 0
        ∨ (lastResultOf (processLine parse st st.buffer).delivered).isSome = true) →
      onClose parse st code =
        (processLine parse st st.buffer,
         .resolved (lastResultOf (processLine parse st st.buffer).delivered)))
    ∧ (st.aborted = false → code ≠ some 0 →
      lastResultOf (processLine parse st st.buffer).delivered = none →
      onClose parse st code = (processLine parse st st.buffer, .rejected code)) := by
  have hinv : (processLine parse st st.buffer).lastResult =
      lastResultOf (processLine parse st st.buffer).delivered :=
    processLine_resultInv parse st st.buffer h
  have hab : (processLine parse st st.buffer).aborted = st.aborted :=
    processLine_aborted parse st st.buffer
  refine ⟨fun ha => ?_, fun ha hor => ?_, fun ha hne hnone => ?_⟩
  · simp only [onClose, hab, ha, if_true]
  · have hcond : (code == some 0 || (processLine parse st st.buffer).lastResult.isSome)
        = true := by
      rcases hor with h0 | hs
      · simp [h0]
      · rw [hinv, hs]
        simp
    have hcond2 : (code == some 0
        || (lastResultOf (processLine parse st st.buffer).delivered).isSome) = true := by
      rw [← hinv]
      exact hcond
    simp only [onClose, hab, ha, Bool.false_eq_true, if_false, hinv, hcond2, if_true]
  · have hcond : (code == some 0 || (processLine parse st st.buffer).lastResult.isSome)
        = false := by
      rw [hinv, hnone]
      simp [hne]
    have hcond2 : (code == some 0
        || (lastResultOf (processLine parse st st.buffer).delivered).isSome) = false := by
      rw [← hinv]
      exact hcond
    simp only [onClose, hab, ha, Bool.false_eq_true, if_false, hinv, hcond2]

/-- Witness for C2: non-zero exit with a result chunk parsed from the
leftover buffer still resolves with that chunk. -/
theorem C2_exit_settlement_witness :
    ResultInv { buffer := ['r'], lastResult := none, delivered := [], aborted := false,
                killSignals := 0 }
    ∧ onClose (fun l => if l = ['r'] then some { type := "result" } else none)
        { buffer := ['r'], lastResult := none, delivered := [], aborted := false,
          killSignals := 0 } (some 1)
      = (processLine (fun l => if l = ['r'] then some { type := "result" } else none)
           { buffer := ['r'], lastResult := none, delivered := [], aborted := false,
             killSignals := 0 } ['r'],
         .resolved (some { type := "result" })) := by
  have h := (C2_exit_settlement
    (fun l => if l = ['r'] then some { type := "result" } else none)
    { buffer := ['r'], lastResult := none, delivered := [], aborted := false,
      killSignals := 0 } (some 1) (by simp [ResultInv, lastResultOf])).2.1 rfl
    (Or.inr (by decide))
  refine ⟨by simp [ResultInv, lastResultOf], h.trans ?_⟩
  decide

/-- C4 counterexample.  Late-arriving stdout data is not ignored after
abort: from the aborted state, a `'data'` event carrying a valid result
line is still parsed, delivered to `onChunk`, and recorded as the last
result — the stdout handler (claude-code.ts lines 232–252) never
consults the `aborted` flag. -/
theorem C4_counterexample :
    (abortRun ExecState.init).aborted = true
    ∧ (onStdoutData (fun l => if l = ['r'] then some { type := "result" } else none)
        (abortRun ExecState.init) ['r', '\n']).delivered = [{ type := "result" }]
    ∧ (onStdoutData (fun l => if l = ['r'] then some { type := "result" } else none)
        (abortRun ExecState.init) ['r', '\n']).lastResult = some { type := "result" } := by
  refine ⟨rfl, by decide, by decide⟩

/-- C4 amended.  After the first `abort()` the `aborted` flag is set
and further `abort()` calls are no-ops; stdout data arriving after the
abort is still parsed and delivered to `onChunk` exactly as before
(and can still update the last-result cache), but the suppression
happens at exit: the promise resolves to null regardless of any late
result, so no late chunk ever becomes the run's result.  (The UI-side
suppression the spec describes lives in the controller's
`updateWithIndicator`, which drops updates once `execution.aborted` is
set, not in the orchestrator's data handler.) -/
theorem C4_amended_abort_semantics (parse : JsParse) (st : ExecState) (data : List Char)
    (code : Option Int) (h : st.aborted = true) :
    abortRun st = st
    ∧ (onStdoutData parse st data).aborted = true
    ∧ (onClose parse (onStdoutData parse st data) code).2 = .resolved none
    ∧ (onStdoutData parse st data).delivered =
        st.delivered ++
          ((splitOnNl (st.buffer ++ data)).dropLast).filterMap (parsedLineOutput parse) := by
  have hab : (onStdoutData parse st data).aborted = true := by
    rw [onStdoutData_aborted]
    exact h
  refine ⟨by simp [abortRun, h], hab, ?_, onStdoutData_delivered parse st data⟩
  have hab2 : (processLine parse (onStdoutData parse st data)
      (onStdoutData parse st data).buffer).aborted = true := by
    rw [processLine_aborted]
    exact hab
  simp only [onClose, hab2, if_true]

/-- Witness for the amended C4 at a concrete aborted state. -/
theorem C4_amended_abort_semantics_witness :
    ({ buffer := [], lastResult := none, delivered := [], aborted := true,
       killSignals := 0 } : ExecState).aborted = true
    ∧ (onClose (fun l => if l = ['r'] then some { type := "result" } else none)
        (onStdoutData (fun l => if l = ['r'] then some { type := "result" } else none)
          { buffer := [], lastResult := none, delivered := [], aborted := true,
            killSignals := 0 } ['r', '\n'])
        (some 0)).2 = .resolved none := by
  exact ⟨rfl,
    (C4_amended_abort_semantics (fun l => if l = ['r'] then some { type := "result" } else none)
      { buffer := [], lastResult := none, delivered := [], aborted := true, killSignals := 0 }
      ['r', '\n'] (some 0) rfl).2.2.1⟩

/-- C10.  On close, a non-blank leftover buffer (a final line without a
trailing newline) is parsed; when it parses to a `result` chunk, the
chunk is delivered to `onChunk`, recorded as the last result, and the
promise resolves with it — a terminal result chunk lacking a trailing
newline still counts as the run's result, whatever the exit code. -/
theorem C10_trailing_result (parse : JsParse) (st : ExecState) (code : Option Int)
    (chunk : ClaudeStreamChunk) (hab : st.aborted = false)
    (hblank : jsTrimEmpty st.buffer = false) (hp : parse st.buffer = some chunk)
    (ht : chunk.type = "result") :
    (onClose parse st code).1.delivered = st.delivered ++ [chunk]
    ∧ (onClose parse st code).1.lastResult = some chunk
    ∧ (onClose parse st code).2 = .resolved (some chunk) := by
  have hpl : processLine parse st st.buffer =
      { st with delivered := st.delivered ++ [chunk], lastResult := some chunk } := by
    unfold processLine
    rw [hblank]
    simp only [Bool.false_eq_true, if_false, hp, ht]
    simp
  have habp : (processLine parse st st.buffer).aborted = false := by
    rw [processLine_aborted]
    exact hab
  have hcond : (code == some 0 || (processLine parse st st.buffer).lastResult.isSome)
      = true := by
    rw [hpl]
    simp
  have hclose : onClose parse st code =
      (processLine parse st st.buffer,
       .resolved (processLine parse st st.buffer).lastResult) := by
    simp only [onClose, habp, Bool.false_eq_true, if_false, hcond, if_true]
  rw [hclose, hpl]
  simp

/-- Witness for C10: buffer holding an unterminated result line, exit
code 1. -/
theorem C10_trailing_result_witness :
    ({ buffer := ['r'], lastResult := none, delivered := [], aborted := false,
       killSignals := 0 } : ExecState).aborted = false
    ∧ jsTrimEmpty ['r'] = false
    ∧ (onClose (fun l => if l = ['r'] then some { type := "result" } else none)
        { buffer := ['r'], lastResult := none, delivered := [], aborted := false,
          killSignals := 0 } (some 1)).2 = .resolved (some { type := "result" }) := by
  exact ⟨rfl, by decide,
    (C10_trailing_result (fun l => if l = ['r'] then some { type := "result" } else none)
      { buffer := ['r'], lastResult := none, delivered := [], aborted := false,
        killSignals := 0 } (some 1) { type := "result" } rfl (by decide) (by decide) rfl).2.2⟩

/- ### C9: byte-limit truncation -/

theorem not_high_of_low (w : Nat) (h : isLowSurrogate w = true) :
    isHighSurrogate w = false := by
  unfold isLowSurrogate at h
  unfold isHighSurrogate
  simp only [Bool.and_eq_true, decide_eq_true_eq] at h
  simp only [Bool.and_eq_false_iff, decide_eq_false_iff_not]
  right
  omega

theorem unitLen_of_high (u : Nat) (h : isHighSurrogate u = true) :
    utf16UnitUtf8Len u = 3 := by
  unfold isHighSurrogate at h
  simp only [Bool.and_eq_true, decide_eq_true_eq] at h
  unfold utf16UnitUtf8Len
  rw [if_neg (by omega), if_neg (by omega)]

theorem unitLen_of_low (u : Nat) (h : isLowSurrogate u = true) :
    utf16UnitUtf8Len u = 3 := by
  unfold isLowSurrogate at h
  simp only [Bool.and_eq_true, decide_eq_true_eq] at h
  unfold utf16UnitUtf8Len
  rw [if_neg (by omega), if_neg (by omega)]

theorem jsByteLength_cons_not_high (w : Nat) (ws : List Nat)
    (h : isHighSurrogate w = false) :
    jsByteLength (w :: ws) = utf16UnitUtf8Len w + jsByteLength ws := by
  cases ws with
  | nil => simp [jsByteLength]
  | cons x xs => simp [jsByteLength, h]

theorem jsByteLength_append_le (xs ys : List Nat) :
    jsByteLength (xs ++ ys) ≤ jsByteLength xs + jsByteLength ys := by
  induction xs using jsByteLength.induct with
  | case1 => simp [jsByteLength]
  | case2 u =>
      cases ys with
      | nil => simp [jsByteLength]
      | cons w ws =>
          by_cases hc : (isHighSurrogate u && isLowSurrogate w) = true
          · have hh : isHighSurrogate u = true := by
              simp only [Bool.and_eq_true] at hc
              exact hc.1
            have hl : isLowSurrogate w = true := by
              simp only [Bool.and_eq_true] at hc
              exact hc.2
            simp only [List.singleton_append, jsByteLength, hc, if_true]
            rw [jsByteLength_cons_not_high w ws (not_high_of_low w hl),
              unitLen_of_high u hh, unitLen_of_low w hl]
            omega
          · simp only [List.singleton_append, jsByteLength, hc, Bool.false_eq_true, if_false]
            omega
  | case3 u v rest hc ih =>
      simp only [List.cons_append, jsByteLength, hc, if_true, List.append_eq]
      omega
  | case4 u v rest hc ih =>
      have hc2 : (isHighSurrogate u && isLowSurrogate v) = false := by
        simp only [Bool.not_eq_true] at hc
        exact hc
      simp only [List.cons_append, jsByteLength, hc2, Bool.false_eq_true, if_false,
        List.append_eq]
      have hthis := ih
      simp only [List.cons_append, List.append_eq] at hthis
      omega

theorem truncLoop_le (s : List Nat) (maxBytes : Nat) (low high : Nat)
    (h : jsByteLength (s.take low) ≤ maxBytes) :
    jsByteLength (s.take (truncLoop s maxBytes low high)) ≤ maxBytes := by
  induction low, high using truncLoop.induct s maxBytes with
  | case1 low high hlt mid hmid ih =>
      rw [truncLoop, if_pos hlt, if_pos hmid]
      exact ih hmid
  | case2 low high hlt mid hmid ih =>
      rw [truncLoop, if_pos hlt, if_neg hmid]
      exact ih h
  | case3 low high hlt =>
      rw [truncLoop, if_neg hlt]
      exact h

theorem truncateToByteLimit_le (s : List Nat) (maxBytes : Nat) :
    jsByteLength (truncateToByteLimit s maxBytes) ≤ maxBytes := by
  unfold truncateToByteLimit
  split
  · assumption
  · exact truncLoop_le s maxBytes 0 s.length (by simp [jsByteLength])

theorem jsByteLength_replicate_cjk (n : Nat) :
    jsByteLength (List.replicate n 19968) = 3 * n := by
  induction n with
  | zero => simp [jsByteLength]
  | succ k ih =>
      rw [List.replicate_succ, jsByteLength_cons_not_high 19968 _ (by decide), ih]
      have hu : utf16UnitUtf8Len 19968 = 3 := by decide
      omega

/-- C9.  For every converted content string, `truncateForSlack` returns
a string of UTF-8 byte length at most 38000; the binary-search
truncation never overshoots its byte budget (for any string and any
budget), and content exceeding the limit is cut to at most 37900 bytes
before the fixed truncation notice (49 bytes) is appended, keeping the
total within the limit. -/
theorem C9_truncateForSlack_byte_limits :
    (∀ converted : List Nat, jsByteLength (truncateForSlack converted) ≤ SLACK_MAX_BYTES)
    ∧ (∀ (s : List Nat) (maxBytes : Nat),
        jsByteLength (truncateToByteLimit s maxBytes) ≤ maxBytes)
    ∧ (∀ converted : List Nat, SLACK_MAX_BYTES < jsByteLength converted →
        truncateForSlack converted =
          truncateToByteLimit converted (SLACK_MAX_BYTES - 100) ++ truncationNotice
        ∧ jsByteLength (truncateToByteLimit converted (SLACK_MAX_BYTES - 100)) ≤ 37900) := by
  have hnotice : jsByteLength truncationNotice = 49 := by decide
  refine ⟨fun converted => ?_, truncateToByteLimit_le, fun converted h => ⟨?_, ?_⟩⟩
  · unfold truncateForSlack
    split
    · assumption
    · have h1 := jsByteLength_append_le
        (truncateToByteLimit converted (SLACK_MAX_BYTES - 100)) truncationNotice
      have h2 := truncateToByteLimit_le converted (SLACK_MAX_BYTES - 100)
      have h3 : SLACK_MAX_BYTES - 100 = 37900 := by norm_num [SLACK_MAX_BYTES]
      rw [hnotice] at h1
      simp only [SLACK_MAX_BYTES] at *
      omega
  · unfold truncateForSlack
    rw [if_neg (by omega)]
  · have h2 := truncateToByteLimit_le converted (SLACK_MAX_BYTES - 100)
    have h3 : SLACK_MAX_BYTES - 100 = 37900 := by norm_num [SLACK_MAX_BYTES]
    omega

/-- Witness for C9 on a 12667-character CJK string (38001 bytes, over
the limit): the truncation branch is taken. -/
theorem C9_truncateForSlack_byte_limits_witness :
    SLACK_MAX_BYTES < jsByteLength (List.replicate 12667 19968)
    ∧ truncateForSlack (List.replicate 12667 19968) =
        truncateToByteLimit (List.replicate 12667 19968) (SLACK_MAX_BYTES - 100)
          ++ truncationNotice := by
  have hlen : jsByteLength (List.replicate 12667 19968) = 38001 := by
    rw [jsByteLength_replicate_cjk]
  have hgt : SLACK_MAX_BYTES < jsByteLength (List.replicate 12667 19968) := by
    rw [hlen]
    norm_num [SLACK_MAX_BYTES]
  exact ⟨hgt, (C9_truncateForSlack_byte_limits.2.2 (List.replicate 12667 19968) hgt).1⟩
